import Mathlib

/-!
Verification of the daily-topic sender (`app.py`).

The program is a straight-line pipeline: read configuration from the
environment, call a chat-completion endpoint, append the reply to a
single-table SQLite log, format a message (length guard + optional
markdown escaping) and send it to a messaging endpoint.

Strings are modelled as `List Char` (Python `len`/slicing count code
points, exactly as `List Char` does).  Machine-level concerns (HTTP,
SQLite) are modelled by an oracle supplying the external responses and
by an explicit store state.
-/

namespace NWM

/-- The fixed text appended by `ensure_telegram_length` when it shortens a
message (source line 116: `cut + "\n\n*(zkráceno — otevři úplnou historii v DB)*"`). -/
def truncMarker : List Char := "\n\n*(zkráceno — otevři úplnou historii v DB)*".data

/-- Python slicing `s[:k]` for an arbitrary (possibly negative) bound `k`:
a negative bound counts from the end, clamped at 0. -/
def pySliceTo (s : List Char) (k : Int) : List Char :=
  s.take (if k < 0 then ((s.length : Int) + k).toNat else k.toNat)

/-- Accumulator loop behind Python `str.rfind` for a single-character
needle: scan left to right, remembering the index of the latest hit. -/
def rfindAux (c : Char) : List Char → Nat → Int → Int
  | [], _, best => best
  | x :: xs, i, best => rfindAux c xs (i + 1) (if x = c then (i : Int) else best)

/-- Python `s.rfind(c)`: the largest index at which `c` occurs in `s`,
or `-1` when `c` does not occur. -/
def pyRfind (c : Char) (s : List Char) : Int :=
  rfindAux c s 0 (-1)

/-- Embedding of `ensure_telegram_length` (source lines 108–116):

    def ensure_telegram_length(text, limit=4000):
        if len(text) <= limit:
            return text
        cut = text[:limit-200]
        last_newline = cut.rfind("\n")
        if last_newline > 0:
            cut = cut[:last_newline]
        return cut + "\n\n*(zkráceno — otevři úplnou historii v DB)*"

The only call site uses the default `limit = 4000`. -/
def ensure_telegram_length (text : List Char) (limit : Nat) : List Char :=
  if text.length ≤ limit then text
  else
    let cut := pySliceTo text ((limit : Int) - 200)
    let lastNewline := pyRfind '\n' cut
    let cut2 := if 0 < lastNewline then cut.take lastNewline.toNat else cut
    cut2 ++ truncMarker

/-- Index of the last occurrence of `c` in a list (`none` when absent);
this is the "nearest line boundary preceding the cut point" when applied
with `c = '\n'` to the cut region. -/
def lastIdx (c : Char) : List Char → Option Nat
  | [] => none
  | x :: xs =>
    match lastIdx c xs with
    | some k => some (k + 1)
    | none => if x = c then some 0 else none

/-- Spec-side rendering of claim C2 as stated: cut at `limit - 200`, and
whenever a line boundary exists anywhere in the cut region, back up to the
nearest one preceding the cut point before appending the marker; only when
no boundary exists fall back to the hard cut. -/
def ensure_length_claimC2 (text : List Char) (limit : Nat) : List Char :=
  if text.length ≤ limit then text
  else
    let cut := pySliceTo text ((limit : Int) - 200)
    match lastIdx '\n' cut with
    | some k => cut.take k ++ truncMarker
    | none => cut ++ truncMarker

/-- Spec-side rendering of the amended claim C2: back up to the nearest
line boundary preceding the cut point only when that boundary sits at a
strictly positive index of the cut region; when the only boundary is the
very first character of the cut region, or there is none at all, keep the
hard cut at `limit - 200`. -/
def ensure_length_claimC2_amended (text : List Char) (limit : Nat) : List Char :=
  if text.length ≤ limit then text
  else
    let cut := pySliceTo text ((limit : Int) - 200)
    match lastIdx '\n' cut with
    | some k => if 0 < k then cut.take k ++ truncMarker else cut ++ truncMarker
    | none => cut ++ truncMarker

/-- Python `str.replace(c, r)` for a single-character needle `c`: every
occurrence of `c` is replaced by `r`, all other characters kept. -/
def replaceChar (c : Char) (r : List Char) : List Char → List Char
  | [] => []
  | x :: xs => (if x = c then r else [x]) ++ replaceChar c r xs

/-- Embedding of the escaping step of `main` (source line 137):

    esc = msg.replace("_", "\\_").replace("*", "\\*").replace("`", "\\`").replace("[", "\\[")
-/
def escape_markdown (s : List Char) : List Char :=
  replaceChar '[' ['\\', '[']
    (replaceChar '`' ['\\', '`']
      (replaceChar '*' ['\\', '*']
        (replaceChar '_' ['\\', '_'] s)))

/-- The four markdown metacharacters the program escapes. -/
def isMeta (c : Char) : Bool :=
  c = '_' || c = '*' || c = '`' || c = '['

/-- Spec-side rendering of claim C4: the escaped output is the input with a
backslash inserted immediately before each metacharacter occurrence, and
with no other character altered, removed or reordered. -/
def escapeClaimC4 : List Char → List Char
  | [] => []
  | x :: xs => (if isMeta x then ['\\', x] else [x]) ++ escapeClaimC4 xs

/-- JSON values, as produced by `requests.Response.json()` (numbers are
modelled as integers; no claim depends on fractional values). -/
inductive Json where
  | null : Json
  | bool (b : Bool) : Json
  | num (n : Int) : Json
  | str (s : String) : Json
  | arr (xs : List Json) : Json
  | obj (kvs : List (String × Json)) : Json

/-- Lookup in the key/value list of a JSON object. -/
def lookupKV (k : String) : List (String × Json) → Option Json
  | [] => none
  | (k', v) :: rest => if k' = k then some v else lookupKV k rest

/-- Python `data[k]` for a string key `k`, with every raised exception
(`KeyError` on objects, `TypeError` elsewhere) collapsed to `none`. -/
def getKey (k : String) : Json → Option Json
  | .obj kvs => lookupKV k kvs
  | _ => none

/-- Python `data[i]` for a non-negative integer index, with every raised
exception collapsed to `none`; on a string Python returns the one-character
substring at that position. -/
def getIndex (i : Nat) : Json → Option Json
  | .arr xs => xs.get? i
  | .str s => (s.data.get? i).map (fun ch => Json.str (String.mk [ch]))
  | _ => none

/-- The field path `data["choices"][0]["message"]["content"]` read inside
the `try` of `call_openai` (source line 66). -/
def extractPath (data : Json) : Option Json :=
  ((((getKey "choices" data).bind (getIndex 0)).bind
    (getKey "message")).bind (getKey "content"))

/-- The characters removed by Python `str.strip()` with no argument
(ASCII whitespace; the claims never exercise the non-ASCII cases). -/
def isPySpace (c : Char) : Bool :=
  c = ' ' || c = '\t' || c = '\n' || c = '\r' || c = '\x0b' || c = '\x0c'

/-- Python `s.strip()` on a list of characters. -/
def pyStripList (s : List Char) : List Char :=
  ((s.dropWhile isPySpace).reverse.dropWhile isPySpace).reverse

/-- Python `s.strip()`. -/
def pyStrip (s : String) : String :=
  String.mk (pyStripList s.data)

/-- `n` spaces, the indentation unit of `json.dumps(indent=2)`. -/
def spacesN (n : Nat) : String :=
  String.mk (List.replicate n ' ')

/-- Lower-case hexadecimal digit. -/
def hexDigit (n : Nat) : Char :=
  if n < 10 then Char.ofNat (48 + n) else Char.ofNat (87 + n)

/-- Two-digit lower-case hexadecimal rendering. -/
def hex2 (n : Nat) : String :=
  String.mk [hexDigit (n / 16), hexDigit (n % 16)]

/-- Per-character escaping of `json.dumps` with `ensure_ascii=False`:
only the quote, the backslash and control characters are escaped. -/
def jsonEscapeChar (c : Char) : String :=
  if c = '"' then "\\\""
  else if c = '\\' then "\\\\"
  else if c = '\n' then "\\n"
  else if c = '\t' then "\\t"
  else if c = '\r' then "\\r"
  else if c = '\x08' then "\\b"
  else if c = '\x0c' then "\\f"
  else if c.toNat < 32 then "\\u00" ++ hex2 c.toNat
  else String.mk [c]

/-- A JSON string literal as rendered by `json.dumps(ensure_ascii=False)`. -/
def jsonQuote (s : String) : String :=
  "\"" ++ String.join (s.data.map jsonEscapeChar) ++ "\""

mutual

/-- `json.dumps(data, ensure_ascii=False, indent=2)` (source line 68);
`ind` is the indentation column of the value's closing bracket. -/
def dumpsJ (ind : Nat) : Json → String
  | .null => "null"
  | .bool b => if b then "true" else "false"
  | .num n => toString n
  | .str s => jsonQuote s
  | .arr [] => "[]"
  | .arr (x :: xs) =>
    "[\n" ++ String.intercalate ",\n" (dumpsItems (ind + 2) (x :: xs)) ++
      "\n" ++ spacesN ind ++ "]"
  | .obj [] => "\x7b\x7d"
  | .obj (kv :: kvs) =>
    "\x7b\n" ++ String.intercalate ",\n" (dumpsPairs (ind + 2) (kv :: kvs)) ++
      "\n" ++ spacesN ind ++ "\x7d"

/-- The indented renderings of the elements of a JSON array. -/
def dumpsItems (ind : Nat) : List Json → List String
  | [] => []
  | x :: xs => (spacesN ind ++ dumpsJ ind x) :: dumpsItems ind xs

/-- The indented `"key": value` renderings of the members of a JSON object. -/
def dumpsPairs (ind : Nat) : List (String × Json) → List String
  | [] => []
  | (k, v) :: kvs =>
    (spacesN ind ++ jsonQuote k ++ ": " ++ dumpsJ ind v) :: dumpsPairs ind kvs

end

/-- The pure content-extraction part of `call_openai` (source lines 63–69)
applied to the decoded response body: the `try` block reads the field path
and falls back to the pretty-printed dump of the whole body on any
exception; the final `content.strip()` sits outside the `try`, so a
successfully extracted non-string value makes the function raise
(`.error`). -/
def call_openai_extract (data : Json) : Except Unit String :=
  match extractPath data with
  | some (.str s) => .ok (pyStrip s)
  | some _ => .error ()
  | none => .ok (pyStrip (dumpsJ 0 data))

/-- The environment variables the claims depend on (source lines 17–25). -/
structure Env where
  OPENAI_API_KEY : Option String
  TG_BOT_TOKEN : Option String
  TG_CHAT_ID : Option String
  SEND_AS_MARKDOWN : Option String

/-- Python truthiness of `os.environ.get(...)`: `None` and the empty
string are falsy. -/
def pyTruthy : Option String → Bool
  | none => false
  | some s => !(s == "")

/-- The module-level credential check (source line 27):
`if not (OPENAI_API_KEY and TG_BOT_TOKEN and TG_CHAT_ID)`. -/
def configOk (e : Env) : Bool :=
  pyTruthy e.OPENAI_API_KEY && pyTruthy e.TG_BOT_TOKEN && pyTruthy e.TG_CHAT_ID

/-- `SEND_AS_MARKDOWN = os.environ.get("SEND_AS_MARKDOWN", "1") == "1"`
(source line 25). -/
def sendAsMarkdown (e : Env) : Bool :=
  e.SEND_AS_MARKDOWN.getD "1" == "1"

/-- Outcome of one HTTP request, supplied by the oracle: a transport-level
failure (timeout, connection error), or a response with a status code and
an optional decoded JSON body (`none` when `r.json()` would raise). -/
inductive HttpResult where
  | failed : HttpResult
  | response (status : Nat) (body : Option Json) : HttpResult

/-- External inputs of one run: the two HTTP responses and the two clock
readings (the ISO timestamp stored by `save_topic` and the formatted
timestamp interpolated into the Telegram header). -/
structure Oracle where
  openaiHttp : HttpResult
  tgHttp : HttpResult
  nowIso : String
  headerTs : String

/-- State of the SQLite store: whether the `topics` table exists, and its
rows as `(created_utc, content)` pairs in insertion order (the
auto-increment `id` is the row's position). -/
structure DB where
  tableExists : Bool
  rows : List (String × String)

/-- `init_db` (source lines 72–83): `CREATE TABLE IF NOT EXISTS topics`;
creates the table when absent and leaves existing rows untouched. -/
def init_db (db : DB) : DB :=
  { tableExists := true, rows := db.rows }

/-- `save_topic` (source lines 85–91): inserts one row with the current
UTC timestamp and the content, committing immediately; raises when the
table does not exist. -/
def save_topic (now content : String) (db : DB) : Except Unit DB :=
  if db.tableExists then
    .ok { db with rows := db.rows ++ [(now, content)] }
  else .error ()

/-- `requests.raise_for_status()` raises exactly for status codes in
`[400, 600)`. -/
def httpError (s : Nat) : Bool :=
  decide (400 ≤ s ∧ s < 600)

/-- The Telegram message header built in `main` (source line 131), with the
formatted timestamp supplied by the oracle. -/
def headerText (ts : String) : String :=
  "📚 Denní téma — " ++ ts ++ "\n\n"

/-- The message-formatting steps of `main` (source lines 131–140):
concatenate header and topic, apply the length guard, then escape markdown
metacharacters when markdown mode is on. -/
def formatMsg (e : Env) (ts : String) (topic : String) : List Char :=
  let msg := (headerText ts).data ++ topic.data
  let msg2 := ensure_telegram_length msg 4000
  if sendAsMarkdown e then escape_markdown msg2 else msg2

/-- Observable actions of one run, in order of occurrence. -/
inductive Event where
  | openaiCall : Event
  | dbInsert (created content : String) : Event
  | tgCall (text : List Char) : Event

/-- How the process ends: normally, or by the uncaught exception of the
named pipeline stage (a non-zero exit in every non-`ok` case). -/
inductive Outcome where
  | ok : Outcome
  | configError : Outcome
  | openaiError : Outcome
  | persistError : Outcome
  | telegramError : Outcome

/-- One whole invocation of `app.py`: the module-level credential check
(source line 27) followed by `main` (source lines 119–143), returning the
ordered trace of observable actions, the process outcome, and the final
store state. -/
def runProgram (e : Env) (o : Oracle) (db : DB) : List Event × Outcome × DB :=
  if configOk e then
    let db1 := init_db db
    match o.openaiHttp with
    | .failed => ([.openaiCall], .openaiError, db1)
    | .response st body =>
      if httpError st then ([.openaiCall], .openaiError, db1)
      else
        match body with
        | none => ([.openaiCall], .openaiError, db1)
        | some data =>
          match call_openai_extract data with
          | .error _ => ([.openaiCall], .openaiError, db1)
          | .ok topic =>
            match save_topic o.nowIso topic db1 with
            | .error _ => ([.openaiCall], .persistError, db1)
            | .ok db2 =>
              let text := formatMsg e o.headerTs topic
              match o.tgHttp with
              | .failed =>
                ([.openaiCall, .dbInsert o.nowIso topic, .tgCall text],
                  .telegramError, db2)
              | .response st2 body2 =>
                if httpError st2 then
                  ([.openaiCall, .dbInsert o.nowIso topic, .tgCall text],
                    .telegramError, db2)
                else
                  match body2 with
                  | none =>
                    ([.openaiCall, .dbInsert o.nowIso topic, .tgCall text],
                      .telegramError, db2)
                  | some _ =>
                    ([.openaiCall, .dbInsert o.nowIso topic, .tgCall text],
                      .ok, db2)
  else ([], .configError, db)

lemma truncMarker_length : truncMarker.length = 44 := by decide

lemma replaceChar_append (c : Char) (r : List Char) (a b : List Char) :
    replaceChar c r (a ++ b) = replaceChar c r a ++ replaceChar c r b := by
  induction a with
  | nil => rfl
  | cons x xs ih =>
    simp only [List.cons_append, replaceChar, List.append_eq, ih,
      List.append_assoc]

lemma escape_markdown_cons (x : Char) (xs : List Char) :
    escape_markdown (x :: xs) =
      (if isMeta x then ['\\', x] else [x]) ++ escape_markdown xs := by
  by_cases h1 : x = '_'
  · subst h1
    simp [escape_markdown, replaceChar, replaceChar_append, isMeta]
  · by_cases h2 : x = '*'
    · subst h2
      simp [escape_markdown, replaceChar, replaceChar_append, isMeta]
    · by_cases h3 : x = '`'
      · subst h3
        simp [escape_markdown, replaceChar, replaceChar_append, isMeta]
      · by_cases h4 : x = '['
        · subst h4
          simp [escape_markdown, replaceChar, replaceChar_append, isMeta]
        · have hm : isMeta x = false := by
            simp [isMeta, h1, h2, h3, h4]
          simp [escape_markdown, replaceChar, replaceChar_append, hm,
            h1, h2, h3, h4]

lemma rfindAux_eq_lastIdx (c : Char) (s : List Char) :
    ∀ (i : Nat) (best : Int), rfindAux c s i best =
      match lastIdx c s with
      | none => best
      | some k => ((i + k : Nat) : Int) := by
  induction s with
  | nil => intro i best; rfl
  | cons x xs ih =>
    intro i best
    rw [rfindAux, ih]
    cases hxs : lastIdx c xs with
    | some k =>
      simp only [lastIdx, hxs]
      congr 1
      omega
    | none =>
      simp only [lastIdx, hxs]
      by_cases hx : x = c
      · simp [hx]
      · simp [hx]

lemma pyRfind_eq_lastIdx (c : Char) (s : List Char) :
    pyRfind c s =
      match lastIdx c s with
      | none => (-1 : Int)
      | some k => (k : Int) := by
  rw [pyRfind, rfindAux_eq_lastIdx]
  cases lastIdx c s <;> simp

lemma lastIdx_replicate_ne (c a : Char) (h : a ≠ c) (n : Nat) :
    lastIdx c (List.replicate n a) = none := by
  induction n with
  | zero => rfl
  | succ m ih =>
    rw [List.replicate_succ, lastIdx, ih]
    simp [h]

lemma lastIdx_none_iff (c : Char) (s : List Char) :
    lastIdx c s = none ↔ ∀ j, s.get? j ≠ some c := by
  induction s with
  | nil => simp [lastIdx]
  | cons x xs ih =>
    cases hxs : lastIdx c xs with
    | some m =>
      simp only [lastIdx, hxs]
      constructor
      · intro h; exact absurd h (by simp)
      · intro h
        exfalso
        have hall : ∀ j, xs.get? j ≠ some c := fun j => by
          have := h (j + 1); simpa using this
        rw [ih.mpr hall] at hxs
        exact Option.noConfusion hxs
    | none =>
      simp only [lastIdx, hxs]
      have hxs' := ih.mp hxs
      constructor
      · intro h j
        cases j with
        | zero =>
          simp only [List.get?_cons_zero]
          intro hc
          injection hc with hc
          rw [hc] at h
          simp at h
        | succ j' => simpa using hxs' j'
      · intro h
        have h0 := h 0
        simp only [List.get?_cons_zero] at h0
        have hxc : ¬ x = c := fun hh => h0 (by rw [hh])
        simp [hxc]

lemma lastIdx_some_iff (c : Char) (s : List Char) :
    ∀ k, lastIdx c s = some k ↔
      (s.get? k = some c ∧ ∀ j, k < j → s.get? j ≠ some c) := by
  induction s with
  | nil => intro k; simp [lastIdx]
  | cons x xs ih =>
    intro k
    cases hxs : lastIdx c xs with
    | some m =>
      have hm := (ih m).mp hxs
      simp only [lastIdx, hxs, Option.some.injEq]
      constructor
      · rintro rfl
        refine ⟨by simpa using hm.1, ?_⟩
        intro j hj
        cases j with
        | zero => omega
        | succ j' =>
          simp only [List.get?_cons_succ]
          exact hm.2 j' (by omega)
      · rintro ⟨h1, h2⟩
        cases k with
        | zero =>
          exfalso
          exact h2 (m + 1) (by omega) (by simpa using hm.1)
        | succ k' =>
          have h1' : xs.get? k' = some c := by simpa using h1
          have h2' : ∀ j, k' < j → xs.get? j ≠ some c := by
            intro j hj
            have := h2 (j + 1) (by omega)
            simpa using this
          have := (ih k').mpr ⟨h1', h2'⟩
          rw [hxs] at this
          injection this with this
          omega
    | none =>
      have hall := (lastIdx_none_iff c xs).mp hxs
      simp only [lastIdx, hxs]
      by_cases hx : x = c
      · simp only [hx, if_pos rfl]
        constructor
        · intro h
          injection h with h
          subst h
          refine ⟨by simp [hx], ?_⟩
          intro j hj
          cases j with
          | zero => omega
          | succ j' => simpa using hall j'
        · rintro ⟨h1, h2⟩
          cases k with
          | zero => rfl
          | succ k' => exact absurd (by simpa using h1) (hall k')
      · rw [if_neg hx]
        constructor
        · intro h; exact absurd h (by simp)
        · rintro ⟨h1, h2⟩
          cases k with
          | zero =>
            exfalso
            apply hx
            have : some x = some c := by simpa using h1
            injection this
          | succ k' => exact absurd (by simpa using h1) (hall k')

lemma ensure_telegram_length_of_le (text : List Char) (limit : Nat)
    (h : text.length ≤ limit) : ensure_telegram_length text limit = text := by
  unfold ensure_telegram_length
  simp [h]

lemma pySliceTo_nonneg (s : List Char) (k : Int) (h : 0 ≤ k) :
    pySliceTo s k = s.take k.toNat := by
  unfold pySliceTo
  rw [if_neg (by omega)]

lemma length_pySliceTo_le (s : List Char) (k : Int) (h : 0 ≤ k) :
    (pySliceTo s k).length ≤ k.toNat := by
  rw [pySliceTo_nonneg s k h]
  exact (List.length_take _ _).trans_le (min_le_left _ _)

/-- C1: For every input string strictly longer than the limit (default 4000),
`ensure_telegram_length` returns a string whose length does not exceed the
limit and which ends with the fixed truncation marker. -/
theorem ensure_telegram_length_truncates (text : List Char)
    (h : 4000 < text.length) :
    (ensure_telegram_length text 4000).length ≤ 4000 ∧
      truncMarker <:+ ensure_telegram_length text 4000 := by
  have hnle : ¬ text.length ≤ 4000 := Nat.not_le.mpr h
  have hslice : (pySliceTo text (((4000 : Nat) : Int) - 200)).length ≤ 3800 := by
    have := length_pySliceTo_le text (((4000 : Nat) : Int) - 200) (by decide)
    simpa using this
  unfold ensure_telegram_length
  rw [if_neg hnle]
  refine ⟨?_, List.suffix_append _ _⟩
  rw [List.length_append, truncMarker_length]
  have hcut2 : (if 0 < pyRfind '\n' (pySliceTo text (((4000 : Nat) : Int) - 200)) then
      (pySliceTo text (((4000 : Nat) : Int) - 200)).take
        (pyRfind '\n' (pySliceTo text (((4000 : Nat) : Int) - 200))).toNat
    else pySliceTo text (((4000 : Nat) : Int) - 200)).length ≤ 3800 := by
    split
    · exact le_trans ((List.length_take _ _).trans_le (min_le_right _ _)) hslice
    · exact hslice
  omega

/-- Witness for C1 at a concrete 4001-character input. -/
theorem ensure_telegram_length_truncates_witness :
    (ensure_telegram_length (List.replicate 4001 'a') 4000).length ≤ 4000 ∧
      truncMarker <:+ ensure_telegram_length (List.replicate 4001 'a') 4000 :=
  ensure_telegram_length_truncates (List.replicate 4001 'a')
    (by rw [List.length_replicate]; omega)

/-- C3: For every input string whose length is at most the limit,
`ensure_telegram_length` returns the input unchanged. -/
theorem ensure_telegram_length_id_of_short (text : List Char) (limit : Nat)
    (h : text.length ≤ limit) : ensure_telegram_length text limit = text :=
  ensure_telegram_length_of_le text limit h

/-- Witness for C3 at a concrete short input. -/
theorem ensure_telegram_length_id_of_short_witness :
    ensure_telegram_length "hello".data 4000 = "hello".data :=
  ensure_telegram_length_id_of_short "hello".data 4000 (by decide)

lemma pySliceTo_3800 :
    pySliceTo ('\n' :: List.replicate 4100 'a') (((4000 : Nat) : Int) - 200) =
      '\n' :: List.replicate 3799 'a' := by
  rw [pySliceTo_nonneg _ _ (by decide),
    show (((4000 : Nat) : Int) - 200).toNat = 3800 from by decide,
    show (3800 : Nat) = 3799 + 1 from rfl,
    List.take_succ_cons, List.take_replicate]
  norm_num

lemma lastIdx_cex :
    lastIdx '\n' ('\n' :: List.replicate 3799 'a') = some 0 := by
  rw [lastIdx, lastIdx_replicate_ne '\n' 'a' (by decide)]
  simp

/-- C2 counterexample: on a text whose only line boundary in the cut region
is the region's very first character, the code keeps the hard cut, while
the claim as stated demands backing up to that boundary. -/
theorem ensure_telegram_length_claimC2_cex :
    ensure_telegram_length ('\n' :: List.replicate 4100 'a') 4000 ≠
      ensure_length_claimC2 ('\n' :: List.replicate 4100 'a') 4000 := by
  have hnle : ¬ ('\n' :: List.replicate 4100 'a').length ≤ 4000 := by
    rw [List.length_cons, List.length_replicate]; omega
  have hrf : pyRfind '\n' ('\n' :: List.replicate 3799 'a') = 0 := by
    rw [pyRfind_eq_lastIdx, lastIdx_cex]
    norm_num
  have hcode : ensure_telegram_length ('\n' :: List.replicate 4100 'a') 4000 =
      ('\n' :: List.replicate 3799 'a') ++ truncMarker := by
    unfold ensure_telegram_length
    rw [if_neg hnle]
    simp only [pySliceTo_3800, hrf]
    norm_num
  have hclaim : ensure_length_claimC2 ('\n' :: List.replicate 4100 'a') 4000 =
      truncMarker := by
    unfold ensure_length_claimC2
    rw [if_neg hnle]
    simp only [pySliceTo_3800, lastIdx_cex]
    rw [List.take_zero, List.nil_append]
  rw [hcode, hclaim]
  intro h
  have hl := congrArg List.length h
  rw [List.length_append, truncMarker_length, List.length_cons,
    List.length_replicate] at hl
  omega

/-- C2 (amended): for every input longer than the limit, the code cuts at
`limit - 200` and backs up to the nearest line boundary preceding the cut
point only when that boundary is at a strictly positive index of the cut
region; when the only boundary is the first character of the cut region, or
none exists, it keeps the hard cut, then appends the truncation marker. -/
theorem ensure_telegram_length_boundary_backup (text : List Char) (limit : Nat) :
    ensure_telegram_length text limit = ensure_length_claimC2_amended text limit := by
  by_cases h : text.length ≤ limit
  · rw [ensure_telegram_length_of_le text limit h]
    unfold ensure_length_claimC2_amended
    rw [if_pos h]
  · unfold ensure_telegram_length ensure_length_claimC2_amended
    rw [if_neg h, if_neg h]
    simp only [pyRfind_eq_lastIdx]
    cases hl : lastIdx '\n' (pySliceTo text ((limit : Int) - 200)) with
    | none => norm_num
    | some k =>
      simp only []
      by_cases hk : 0 < k
      · rw [if_pos (by exact_mod_cast hk), if_pos hk,
          show ((k : Int)).toNat = k from by omega]
      · rw [if_neg (by exact_mod_cast hk), if_neg hk]

lemma escape_markdown_eq (s : List Char) :
    escape_markdown s = escapeClaimC4 s := by
  induction s with
  | nil => rfl
  | cons x xs ih => rw [escape_markdown_cons, ih]; rfl

lemma escapeClaimC4_meta_preceded (s : List Char) :
    ∀ i c, (escapeClaimC4 s).get? i = some c → isMeta c = true →
      ∃ j, i = j + 1 ∧ (escapeClaimC4 s).get? j = some '\\' := by
  induction s with
  | nil => intro i c h _; simp [escapeClaimC4] at h
  | cons x xs ih =>
    intro i c h hc
    by_cases hx : isMeta x = true
    · have hform : escapeClaimC4 (x :: xs) = '\\' :: x :: escapeClaimC4 xs := by
        show (if isMeta x then ['\\', x] else [x]) ++ escapeClaimC4 xs = _
        rw [if_pos hx]; rfl
      rw [hform] at h
      match i, h with
      | 0, h =>
        exfalso
        have : c = '\\' := by injection h with h; exact h.symm
        rw [this] at hc
        exact absurd hc (by decide)
      | 1, h =>
        exact ⟨0, rfl, by rw [hform]; rfl⟩
      | (n + 2), h =>
        obtain ⟨j, hj, hget⟩ := ih n c (by simpa using h) hc
        exact ⟨j + 2, by omega, by rw [hform]; simpa using hget⟩
    · have hform : escapeClaimC4 (x :: xs) = x :: escapeClaimC4 xs := by
        show (if isMeta x then ['\\', x] else [x]) ++ escapeClaimC4 xs = _
        rw [if_neg hx]; rfl
      rw [hform] at h
      match i, h with
      | 0, h =>
        exfalso
        have : c = x := by injection h with h; exact h.symm
        rw [this] at hc
        exact hx hc
      | (n + 1), h =>
        obtain ⟨j, hj, hget⟩ := ih n c (by simpa using h) hc
        exact ⟨j + 1, by omega, by rw [hform]; simpa using hget⟩

/-- C4: the escaping step returns exactly the input with one backslash
inserted immediately before each occurrence of `_`, `*`, backtick and `[`
(no other character is altered, removed or reordered), and consequently in
the output every metacharacter occurrence is immediately preceded by a
backslash. -/
theorem escape_markdown_correct (s : List Char) :
    escape_markdown s = escapeClaimC4 s ∧
      ∀ i c, (escape_markdown s).get? i = some c → isMeta c = true →
        ∃ j, i = j + 1 ∧ (escape_markdown s).get? j = some '\\' := by
  refine ⟨escape_markdown_eq s, ?_⟩
  rw [escape_markdown_eq s]
  exact escapeClaimC4_meta_preceded s

/-- Witness for C4 at the concrete input `"a_"`: its escape equals the
one-pass insertion, and the metacharacter at output position 2 is preceded
by a backslash at position 1. -/
theorem escape_markdown_correct_witness :
    escape_markdown ['a', '_'] = escapeClaimC4 ['a', '_'] ∧
      (∃ j, 2 = j + 1 ∧ (escape_markdown ['a', '_']).get? j = some '\\') :=
  ⟨(escape_markdown_correct ['a', '_']).1,
    (escape_markdown_correct ['a', '_']).2 2 '_' (by decide) (by decide)⟩

lemma save_topic_init (now topic : String) (db : DB) :
    save_topic now topic (init_db db) =
      .ok ⟨true, db.rows ++ [(now, topic)]⟩ := by
  simp [save_topic, init_db]

/-- Shape of a run that reaches the Telegram call: credentials present,
generation request succeeded, content extracted; the trace, the final
store, and the outcome as a function of the Telegram response. -/
lemma runProgram_sent (e : Env) (o : Oracle) (db : DB) (st : Nat)
    (data : Json) (topic : String)
    (hcfg : configOk e = true)
    (hoa : o.openaiHttp = .response st (some data))
    (hst : httpError st = false)
    (hex : call_openai_extract data = .ok topic) :
    runProgram e o db =
      ([.openaiCall, .dbInsert o.nowIso topic,
          .tgCall (formatMsg e o.headerTs topic)],
        (match o.tgHttp with
          | .failed => Outcome.telegramError
          | .response st2 body2 =>
            if httpError st2 then Outcome.telegramError
            else match body2 with
              | none => Outcome.telegramError
              | some _ => Outcome.ok),
        ⟨true, db.rows ++ [(o.nowIso, topic)]⟩) := by
  unfold runProgram
  rw [if_pos hcfg, hoa]
  simp only [hst, Bool.false_eq_true, if_false, hex, save_topic_init]
  cases o.tgHttp with
  | failed => rfl
  | response st2 b2 =>
    by_cases h2 : httpError st2 = true
    · simp only [h2, if_true]
    · simp only [Bool.not_eq_true] at h2
      simp only [h2, Bool.false_eq_true, if_false]
      cases b2 <;> rfl

/-- C5: if any required credential is absent from the environment, the
process exits with the configuration error, no network call is recorded
and the store is untouched. -/
theorem missing_cred_aborts (e : Env) (o : Oracle) (db : DB)
    (h : e.OPENAI_API_KEY = none ∨ e.TG_BOT_TOKEN = none ∨
      e.TG_CHAT_ID = none) :
    runProgram e o db = ([], .configError, db) := by
  have hcfg : configOk e = false := by
    rcases h with h | h | h <;> simp [configOk, pyTruthy, h]
  unfold runProgram
  rw [if_neg (by rw [hcfg]; exact Bool.false_ne_true)]

/-- Witness for C5: a concrete environment missing the generation key. -/
theorem missing_cred_aborts_witness :
    runProgram ⟨none, some "t", some "c", none⟩
        ⟨.failed, .failed, "now", "ts"⟩ ⟨false, []⟩ =
      ([], .configError, ⟨false, []⟩) :=
  missing_cred_aborts ⟨none, some "t", some "c", none⟩
    ⟨.failed, .failed, "now", "ts"⟩ ⟨false, []⟩ (Or.inl rfl)

/-- C6: on a successful generation response whose body lacks the field path
`choices[0].message.content`, extraction does not fail but yields the
pretty-printed dump of the whole body (stripped), and exactly that string
is inserted into the store as the log row's content. -/
theorem openai_fallback_logged (e : Env) (o : Oracle) (db : DB) (st : Nat)
    (data : Json)
    (hcfg : configOk e = true)
    (hoa : o.openaiHttp = .response st (some data))
    (hst : httpError st = false)
    (hmiss : extractPath data = none) :
    call_openai_extract data = .ok (pyStrip (dumpsJ 0 data)) ∧
      Event.dbInsert o.nowIso (pyStrip (dumpsJ 0 data)) ∈
        (runProgram e o db).1 ∧
      (o.nowIso, pyStrip (dumpsJ 0 data)) ∈ ((runProgram e o db).2.2).rows := by
  have hext : call_openai_extract data = .ok (pyStrip (dumpsJ 0 data)) := by
    unfold call_openai_extract
    rw [hmiss]
  refine ⟨hext, ?_, ?_⟩
  · rw [runProgram_sent e o db st data _ hcfg hoa hst hext]
    simp
  · rw [runProgram_sent e o db st data _ hcfg hoa hst hext]
    simp

/-- Witness for C6: a malformed body lacking `choices`. -/
theorem openai_fallback_logged_witness :
    call_openai_extract (.obj [("error", .str "boom")]) =
        .ok (pyStrip (dumpsJ 0 (.obj [("error", .str "boom")]))) ∧
      Event.dbInsert "now" (pyStrip (dumpsJ 0 (.obj [("error", .str "boom")]))) ∈
        (runProgram ⟨some "k", some "t", some "c", none⟩
          ⟨.response 200 (some (.obj [("error", .str "boom")])), .failed,
            "now", "ts"⟩ ⟨false, []⟩).1 ∧
      ("now", pyStrip (dumpsJ 0 (.obj [("error", .str "boom")]))) ∈
        ((runProgram ⟨some "k", some "t", some "c", none⟩
          ⟨.response 200 (some (.obj [("error", .str "boom")])), .failed,
            "now", "ts"⟩ ⟨false, []⟩).2.2).rows :=
  openai_fallback_logged ⟨some "k", some "t", some "c", none⟩
    ⟨.response 200 (some (.obj [("error", .str "boom")])), .failed,
      "now", "ts"⟩ ⟨false, []⟩ 200 (.obj [("error", .str "boom")])
    rfl rfl rfl rfl

/-- C7: when the run reaches the Telegram call and the messaging endpoint
answers with an error status, the process ends with the (non-zero)
notification error, and the trace shows the row inserted strictly before
the Telegram request, the row being present in the final store. -/
theorem tg_error_after_commit (e : Env) (o : Oracle) (db : DB) (st : Nat)
    (data : Json) (topic : String) (st2 : Nat) (b2 : Option Json)
    (hcfg : configOk e = true)
    (hoa : o.openaiHttp = .response st (some data))
    (hst : httpError st = false)
    (hex : call_openai_extract data = .ok topic)
    (htg : o.tgHttp = .response st2 b2)
    (herr : httpError st2 = true) :
    runProgram e o db =
      ([.openaiCall, .dbInsert o.nowIso topic,
          .tgCall (formatMsg e o.headerTs topic)],
        .telegramError, ⟨true, db.rows ++ [(o.nowIso, topic)]⟩) := by
  rw [runProgram_sent e o db st data topic hcfg hoa hst hex, htg]
  simp [herr]

/-- Witness for C7: generation succeeds with `Téma: X`, Telegram answers
status 500. -/
theorem tg_error_after_commit_witness :
    runProgram ⟨some "k", some "t", some "c", none⟩
        ⟨.response 200 (some (.obj [("choices", .arr [.obj [("message",
            .obj [("content", .str "Téma: X")])]])])),
          .response 500 none, "now", "ts"⟩ ⟨false, []⟩ =
      ([.openaiCall, .dbInsert "now" "Téma: X",
          .tgCall (formatMsg ⟨some "k", some "t", some "c", none⟩
            "ts" "Téma: X")],
        .telegramError, ⟨true, [("now", "Téma: X")]⟩) :=
  tg_error_after_commit ⟨some "k", some "t", some "c", none⟩
    ⟨.response 200 (some (.obj [("choices", .arr [.obj [("message",
        .obj [("content", .str "Téma: X")])]])])),
      .response 500 none, "now", "ts"⟩ ⟨false, []⟩
    200 (.obj [("choices", .arr [.obj [("message",
      .obj [("content", .str "Téma: X")])]])]) "Téma: X" 500 none
    rfl rfl rfl rfl rfl rfl

/-- C8: the store is append-only — one run never updates or deletes an
existing row, and it appends either exactly one row or none. -/
theorem store_append_only (e : Env) (o : Oracle) (db : DB) :
    ((runProgram e o db).2.2).rows = db.rows ∨
      ∃ r, ((runProgram e o db).2.2).rows = db.rows ++ [r] := by
  unfold runProgram
  by_cases hcfg : configOk e = true
  · rw [if_pos hcfg]
    cases ho : o.openaiHttp with
    | failed => exact Or.inl rfl
    | response st b =>
      by_cases hst : httpError st = true
      · simp only [hst, if_true]
        exact Or.inl rfl
      · simp only [Bool.not_eq_true] at hst
        simp only [hst, Bool.false_eq_true, if_false]
        cases b with
        | none => exact Or.inl rfl
        | some data =>
          simp only []
          cases hex : call_openai_extract data with
          | error u => simp only []; exact Or.inl rfl
          | ok topic =>
            simp only [save_topic_init]
            cases htg : o.tgHttp with
            | failed => exact Or.inr ⟨(o.nowIso, topic), rfl⟩
            | response st2 b2 =>
              by_cases h2 : httpError st2 = true
              · simp only [h2, if_true]
                exact Or.inr ⟨(o.nowIso, topic), rfl⟩
              · simp only [Bool.not_eq_true] at h2
                simp only [h2, Bool.false_eq_true, if_false]
                cases b2 with
                | none => exact Or.inr ⟨(o.nowIso, topic), rfl⟩
                | some j => exact Or.inr ⟨(o.nowIso, topic), rfl⟩
  · rw [if_neg (by simpa using hcfg)]
    exact Or.inl rfl

/-- C9: `init_db` is idempotent — a second call changes nothing, and after
any call the single `topics` table exists. -/
theorem init_db_idempotent (db : DB) :
    init_db (init_db db) = init_db db ∧ (init_db db).tableExists = true :=
  ⟨rfl, rfl⟩

lemma escapeClaimC4_append (a b : List Char) :
    escapeClaimC4 (a ++ b) = escapeClaimC4 a ++ escapeClaimC4 b := by
  induction a with
  | nil => rfl
  | cons x xs ih =>
    simp only [List.cons_append, escapeClaimC4, List.append_eq, ih,
      List.append_assoc]

lemma escapeClaimC4_length_replicate_underscore (n : Nat) :
    (escapeClaimC4 (List.replicate n '_')).length = 2 * n := by
  induction n with
  | zero => rfl
  | succ m ih =>
    rw [List.replicate_succ]
    show ((if isMeta '_' then ['\\', '_'] else ['_']) ++
      escapeClaimC4 (List.replicate m '_')).length = 2 * (m + 1)
    rw [if_pos (by decide), List.length_append, ih]
    simp
    omega

lemma dropWhile_replicate_of_neg (p : Char → Bool) (a : Char) (h : p a = false)
    (n : Nat) : List.dropWhile p (List.replicate n a) = List.replicate n a := by
  cases n with
  | zero => rfl
  | succ m =>
    rw [List.replicate_succ, List.dropWhile_cons, h]
    simp

lemma pyStripList_replicate_underscore (n : Nat) :
    pyStripList (List.replicate n '_') = List.replicate n '_' := by
  unfold pyStripList
  rw [dropWhile_replicate_of_neg isPySpace '_' (by decide),
    List.reverse_replicate, dropWhile_replicate_of_neg isPySpace '_' (by decide),
    List.reverse_replicate]

lemma pyStrip_underscores (n : Nat) :
    pyStrip (String.mk (List.replicate n '_')) =
      String.mk (List.replicate n '_') := by
  unfold pyStrip
  rw [show (String.mk (List.replicate n '_')).data = List.replicate n '_'
    from rfl, pyStripList_replicate_underscore]

/-- C10: because markdown escaping runs after the length guard, there is a
run (an existing topic string) for which the text handed to the Telegram
call is strictly longer than the 4000-character limit the guard enforced. -/
theorem escaped_message_exceeds_limit :
    ∃ (e : Env) (o : Oracle) (db : DB) (t : List Char),
      Event.tgCall t ∈ (runProgram e o db).1 ∧ 4000 < t.length := by
  refine ⟨⟨some "k", some "t", some "c", none⟩,
    ⟨.response 200 (some (.obj [("choices", .arr [.obj [("message",
        .obj [("content", .str (String.mk (List.replicate 3983 '_')))])]])])),
      .response 200 (some .null), "now", ""⟩,
    ⟨false, []⟩,
    formatMsg ⟨some "k", some "t", some "c", none⟩ ""
      (String.mk (List.replicate 3983 '_')), ?_, ?_⟩
  · have hex : call_openai_extract (.obj [("choices", .arr [.obj [("message",
        .obj [("content", .str (String.mk (List.replicate 3983 '_')))])]])]) =
        .ok (String.mk (List.replicate 3983 '_')) := by
      unfold call_openai_extract
      rw [show extractPath (.obj [("choices", .arr [.obj [("message",
        .obj [("content", .str (String.mk (List.replicate 3983 '_')))])]])]) =
        some (.str (String.mk (List.replicate 3983 '_'))) from rfl]
      simp only []
      rw [pyStrip_underscores]
    rw [runProgram_sent ⟨some "k", some "t", some "c", none⟩
      ⟨.response 200 (some (.obj [("choices", .arr [.obj [("message",
          .obj [("content", .str (String.mk (List.replicate 3983 '_')))])]])])),
        .response 200 (some .null), "now", ""⟩
      ⟨false, []⟩ 200
      (.obj [("choices", .arr [.obj [("message",
        .obj [("content", .str (String.mk (List.replicate 3983 '_')))])]])])
      (String.mk (List.replicate 3983 '_')) rfl rfl rfl hex]
    simp
  · have hmsg : ((headerText "").data ++
        (String.mk (List.replicate 3983 '_')).data).length = 4000 := by
      rw [List.length_append,
        show (headerText "").data.length = 17 from by decide,
        show (String.mk (List.replicate 3983 '_')).data = List.replicate 3983 '_'
          from rfl, List.length_replicate]
    unfold formatMsg
    rw [if_pos (show sendAsMarkdown ⟨some "k", some "t", some "c", none⟩ = true
      from rfl)]
    rw [ensure_telegram_length_of_le _ _ (by rw [hmsg])]
    rw [escape_markdown_eq, escapeClaimC4_append, List.length_append,
      show (String.mk (List.replicate 3983 '_')).data = List.replicate 3983 '_'
        from rfl, escapeClaimC4_length_replicate_underscore]
    omega

end NWM
